import Mathlib

/-!
Verification of the yt-summarizer service (`src/main.py`) against its
natural-language specification.

The Python source is shallowly embedded in Lean:

* Python/JSON values become the inductive type `PyVal`; Python truthiness
  becomes `truthy`.
* `urllib.parse.urlparse` / `parse_qs` (standard-library collaborators of
  `getId`) are modelled on `List Char` for absolute URLs without
  percent-escapes (the development's URL domain excludes `%`, so
  percent-decoding is the identity and is not modelled).
* Exceptions become `Except PyErr`; the FastAPI handler's
  `except`-clauses become `mapErr : PyErr → HttpError`.
* The external collaborators (Mongo cache, transcript HTTP provider, LLM
  client) are abstracted into an `Env` record of oracles; the observable
  side effects of a request (transcript fetches, LLM prompts, cache insert
  attempts) are recorded in an `Effects` value threaded through the run.
-/

namespace YT

/-! ## Part 1 : definitions (the shallow embedding of src/main.py) -/

/-- Whitespace characters stripped by Python's `str.strip()` (ASCII range;
unicode space classes are outside the development's string domain). -/
def isPySpace (c : Char) : Bool :=
  c = ' ' || c = '\t' || c = '\n' || c = '\r' || c = '\x0b' || c = '\x0c'

/-- Python `s.strip()`: remove leading and trailing whitespace. -/
def pyStrip (s : String) : String :=
  String.mk (((s.toList.dropWhile isPySpace).reverse.dropWhile isPySpace).reverse)

/-- Python `" ".join(parts)`. -/
def sjoin (parts : List String) : String :=
  String.intercalate " " parts

def splitOnChar (sep : Char) : List Char → List (List Char)
  | [] => [[]]
  | c :: rest =>
    match splitOnChar sep rest with
    | [] => [[]]
    | h :: t => if c = sep then [] :: h :: t else (c :: h) :: t

structure UrlParts where
  hostname : Option (List Char)
  path : List Char
  query : List Char
deriving Repr, DecidableEq

/-- Characters allowed in a URL scheme (`urllib.parse.scheme_chars`). -/
def isSchemeChar (c : Char) : Bool :=
  c.isAlphanum || c = '+' || c = '-' || c = '.'

/-- A valid scheme: non-empty, starts with a letter, all scheme chars. -/
def validScheme (l : List Char) : Bool :=
  match l with
  | [] => false
  | c :: _ => c.isAlpha && l.all isSchemeChar

/-- Strip a leading `scheme:` when present (mirrors `urlsplit`'s scheme
detection: first `:` with a valid non-empty scheme before it). -/
def schemeSplit (l : List Char) : List Char :=
  let pre := l.takeWhile (fun c => c != ':')
  if pre.length < l.length ∧ validScheme pre = true then l.drop (pre.length + 1) else l

/-- Split off the network location: if the (scheme-stripped) rest starts
with `//`, the netloc extends to the next `/` or `?` (`#` was already
removed).  Returns `(netloc, remainder)`. -/
def splitNetloc (l : List Char) : List Char × List Char :=
  if l.take 2 = ['/', '/'] then
    let after := l.drop 2
    (after.takeWhile (fun c => c != '/' && c != '?'),
     after.dropWhile (fun c => c != '/' && c != '?'))
  else ([], l)

/-- `ParseResult.hostname`: part of the netloc after the last `@`,
before the port `:` (or within `[...]` for IPv6), lowercased; `none` when
empty. -/
def hostFromNetloc (nl : List Char) : Option (List Char) :=
  let afterAt := (nl.reverse.takeWhile (fun c => c != '@')).reverse
  let host :=
    match afterAt with
    | '[' :: rest => rest.takeWhile (fun c => c != ']')
    | _ => afterAt.takeWhile (fun c => c != ':')
  let host := host.map Char.toLower
  if host = [] then none else some host

/-- `urllib.parse.urlparse`, restricted to the fields `getId` reads
(`hostname`, `path`, `query`).  The fragment is split at the first `#`,
the query at the first `?` after the netloc. -/
def urlparse (l : List Char) : UrlParts :=
  let noFrag := l.takeWhile (fun c => c != '#')
  let rest := schemeSplit noFrag
  let np := splitNetloc rest
  { hostname := hostFromNetloc np.1
    path := np.2.takeWhile (fun c => c != '?')
    query := (np.2.dropWhile (fun c => c != '?')).drop 1 }

/-- `urllib.parse.unquote_plus` on percent-free input: `+` becomes space. -/
def unquote_plus (l : List Char) : List Char :=
  l.map (fun c => if c = '+' then ' ' else c)

/-- One `name=value` item of `parse_qsl` with `keep_blank_values=False`:
items without `=` or with an empty value are dropped. -/
def qsPair (nv : List Char) : Option (List Char × List Char) :=
  match nv.dropWhile (fun c => c != '=') with
  | [] => none
  | _ :: v =>
    if v = [] then none
    else some (unquote_plus (nv.takeWhile (fun c => c != '=')), unquote_plus v)

/-- Append a value to the entry for `k`, preserving first-seen key order
(the aggregation `parse_qs` performs over `parse_qsl`). -/
def qsInsert (k v : List Char) :
    List (List Char × List (List Char)) → List (List Char × List (List Char))
  | [] => [(k, [v])]
  | (k', vs) :: rest =>
    if k' = k then (k', vs ++ [v]) :: rest else (k', vs) :: qsInsert k v rest

/-- `urllib.parse.parse_qs query` as an association list. -/
def parse_qs (q : List Char) : List (List Char × List (List Char)) :=
  ((splitOnChar '&' q).filterMap qsPair).foldl (fun acc p => qsInsert p.1 p.2 acc) []

/-- Association-list lookup (Python `dict` access by key). -/
def alookup {β : Type} (k : List Char) : List (List Char × β) → Option β
  | [] => none
  | (k', v) :: rest => if k' = k then some v else alookup k rest

/-- Python `path.strip("/")`. -/
def pyStripSlashes (l : List Char) : List Char :=
  ((l.dropWhile (fun c => c == '/')).reverse.dropWhile (fun c => c == '/')).reverse

/-- `getId` on the character list of the URL.  The source's trailing
`if host == "youtu.be"` test is reached only when the host is not a
`youtube.com` host, so the two branches are written as alternatives.
(`urlparse` in this model is total, so the source's `except` clause,
which returns `None`, has no counterpart; `alookup` returning
`some []` is impossible by construction of `parse_qs` and is sent to the
path branch.) -/
def getIdParts (p : UrlParts) : Option (List Char) :=
  if p.hostname = some "www.youtube.com".toList ∨ p.hostname = some "youtube.com".toList then
    match alookup "v".toList (parse_qs p.query) with
    | some (v0 :: _) => some v0
    | _ =>
      match splitOnChar '/' (pyStripSlashes p.path) with
      | p0 :: p1 :: _ =>
        if p0 = "live".toList ∨ p0 = "embed".toList ∨ p0 = "shorts".toList then some p1
        else none
      | _ => none
  else if p.hostname = some "youtu.be".toList then
    some (p.path.dropWhile (fun c => c == '/'))
  else none

def getIdL (l : List Char) : Option (List Char) :=
  getIdParts (urlparse l)

/-- `getId` (src/main.py): extract a YouTube video id from a URL string,
`none` for an unrecognized host. -/
def getId (url : String) : Option String :=
  (getIdL url.toList).map String.mk

/-- A plain video-id token: non-empty, alphanumeric plus `-` and `_`
(the alphabet of YouTube video ids). -/
def plainToken (s : String) : Bool :=
  !s.toList.isEmpty && s.toList.all (fun c => c.isAlphanum || c = '-' || c = '_')

/-- JSON-decoded Python values as handled by the service. -/
inductive PyVal where
  | none : PyVal
  | int (n : Int) : PyVal
  | str (s : String) : PyVal
  | list (items : List PyVal) : PyVal
  | dict (fields : List (String × PyVal)) : PyVal
deriving Repr

/-- Python truthiness of a value. -/
def truthy : PyVal → Bool
  | .none => false
  | .int n => n != 0
  | .str s => s != ""
  | .list [] => false
  | .list (_ :: _) => true
  | .dict [] => false
  | .dict (_ :: _) => true

/-- Python `a or b`. -/
def pyOr (a b : PyVal) : PyVal := if truthy a then a else b

/-- Python exceptions reaching the endpoint layer.  `ValueError` and
`RuntimeError` carry the message used in the HTTP detail; the remaining
constructors land in the generic 500 handler, whose detail text is not
modelled beyond its fixed prefix. -/
inductive PyErr where
  | valueError (msg : String) : PyErr
  | runtimeError (msg : String) : PyErr
  | attributeError : PyErr
  | typeError : PyErr
  | keyError : PyErr
deriving Repr, DecidableEq

/-- Dictionary lookup (first occurrence; Python dict keys are unique). -/
def pyLookup (k : String) : List (String × PyVal) → Option PyVal
  | [] => Option.none
  | (k', v) :: rest => if k' = k then some v else pyLookup k rest

/-- Python `d.get(k)`: the value, or `None` when the key is absent. -/
def pyDictGet (d : List (String × PyVal)) (k : String) : PyVal :=
  (pyLookup k d).getD .none

/-- Line 88: `item.get("text") or item.get("caption") or ""`. -/
def resolvedField (d : List (String × PyVal)) : PyVal :=
  pyOr (pyDictGet d "text") (pyOr (pyDictGet d "caption") (.str ""))

/-- The per-element collection loop of the sequence branch (lines 82-90):
strings are stripped and collected unconditionally; keyed structures
contribute `item.get("text") or item.get("caption") or ""` when that value
is truthy (`.strip()` on a truthy non-string raises `AttributeError`);
all other elements are skipped. -/
def listParts : List PyVal → Except PyErr (List String)
  | [] => .ok []
  | item :: rest =>
    match item with
    | .str s =>
      match listParts rest with
      | .error e => .error e
      | .ok t => .ok (pyStrip s :: t)
    | .dict d =>
      let text := resolvedField d
      if truthy text then
        match text with
        | .str s =>
          match listParts rest with
          | .error e => .error e
          | .ok t => .ok (pyStrip s :: t)
        | _ => .error .attributeError
      else listParts rest
    | _ => listParts rest

/-- The sequence branch (line 91): space-join the parts and strip. -/
def normList (items : List PyVal) : Except PyErr String :=
  match listParts items with
  | .error e => .error e
  | .ok parts => .ok (pyStrip (sjoin parts))

/-- The values loop of the keyed-structure fallback (lines 103-108):
string values are stripped and collected, sequence values go through the
sequence branch, everything else is skipped. -/
def dictTexts : List (String × PyVal) → Except PyErr (List String)
  | [] => .ok []
  | (_, v) :: rest =>
    match v with
    | .str s =>
      match dictTexts rest with
      | .error e => .error e
      | .ok t => .ok (pyStrip s :: t)
    | .list l =>
      match normList l with
      | .error e => .error e
      | .ok x =>
        match dictTexts rest with
        | .error e => .error e
        | .ok t => .ok (x :: t)
    | _ => dictTexts rest

/-- Keyed-structure fallback (lines 103-113): join the non-empty collected
texts; an empty join falls through to the unsupported-format failure. -/
def dictFallback (d : List (String × PyVal)) : Except PyErr String :=
  match dictTexts d with
  | .error e => .error e
  | .ok texts =>
    let joined := sjoin (texts.filter (fun t => t ≠ ""))
    if joined ≠ "" then .ok (pyStrip joined)
    else .error (.valueError "Unsupported transcript format")

/-- `normalize_transcript` (src/main.py lines 73-113): shape-directed
recursive normalization of a transcript payload. -/
def normalize_transcript : PyVal → Except PyErr String
  | .none => .error (.valueError "Transcript is empty")
  | .str s => .ok (pyStrip s)
  | .list items => normList items
  | .int _ => .error (.valueError "Unsupported transcript format")
  | .dict d =>
    match h1 : pyLookup "transcript" d with
    | some tv => normalize_transcript tv
    | Option.none =>
      match h2 : pyLookup "tracks" d with
      | some (.list (.dict fd :: _)) =>
        match h3 : pyLookup "transcript" fd with
        | some tv2 => normalize_transcript tv2
        | Option.none => dictFallback d
      | _ => dictFallback d
termination_by t => sizeOf t
decreasing_by
  · have key : ∀ (dd : List (String × PyVal)) (v : PyVal),
        pyLookup "transcript" dd = some v → sizeOf v < sizeOf dd := by
      intro dd
      induction dd with
      | nil => intro v hv; simp [pyLookup] at hv
      | cons kv rest ih =>
        intro v hv
        obtain ⟨k2, v2⟩ := kv
        simp only [pyLookup] at hv
        by_cases hk : k2 = "transcript"
        · rw [if_pos hk] at hv
          injection hv with hv
          subst hv
          simp
          omega
        · rw [if_neg hk] at hv
          have := ih v hv
          simp
          omega
    have := key d tv h1
    simp
    omega
  · have key : ∀ (k : String) (dd : List (String × PyVal)) (v : PyVal),
        pyLookup k dd = some v → sizeOf v < sizeOf dd := by
      intro k dd
      induction dd with
      | nil => intro v hv; simp [pyLookup] at hv
      | cons kv rest ih =>
        intro v hv
        obtain ⟨k2, v2⟩ := kv
        simp only [pyLookup] at hv
        by_cases hk : k2 = k
        · rw [if_pos hk] at hv
          injection hv with hv
          subst hv
          simp
          omega
        · rw [if_neg hk] at hv
          have := ih v hv
          simp
          omega
    have ha := key "tracks" d _ h2
    have hb := key "transcript" fd tv2 h3
    simp at ha
    simp
    omega

/-- Lines 174-177 of `fetch_script`: normalize the raw transcript, then
reject text that is empty after normalization. -/
def finalize_script (raw : PyVal) : Except PyErr String :=
  match normalize_transcript raw with
  | .error e => .error e
  | .ok s =>
    if s = "" then
      .error (.valueError "Transcript returned but empty after normalization")
    else .ok s

/-- The non-empty-string view of a field value. -/
def strVal : PyVal → Option String
  | .str s => if s = "" then Option.none else some s
  | _ => Option.none

/-- Refinement definition following the amended claim's words: a string
element contributes its trimmed self; a keyed element contributes the
trimmed `text` value when that is a non-empty string, else the trimmed
`caption` value when that is a non-empty string, else nothing; all other
elements contribute nothing. -/
def contribSpec : PyVal → Option String
  | .str s => some (pyStrip s)
  | .dict d =>
    match strVal (pyDictGet d "text") with
    | some s => some (pyStrip s)
    | Option.none => (strVal (pyDictGet d "caption")).map pyStrip
  | _ => Option.none

/-- A sequence element on which the collection loop cannot raise: a keyed
structure whose resolved recognized-field value is a string or falsy
(everything that is not a keyed structure is always safe). -/
def listItemSafe : PyVal → Bool
  | .dict d =>
    match resolvedField d with
    | .str _ => true
    | v => !truthy v
  | _ => true

structure HttpResp where
  status_code : Nat
  text : String
  json : Option PyVal
deriving Repr

/-- Outcome of the `requests.post` call: timeout, other request
exception, or a response (whose `json` field is absent when `resp.json()`
raises). -/
inductive ReqOutcome where
  | timeout : ReqOutcome
  | reqError (msg : String) : ReqOutcome
  | resp (r : HttpResp) : ReqOutcome
deriving Repr

/-- Python substring containment (`needle in hay` for strings). -/
def isSubstr (needle hay : String) : Bool :=
  hay.toList.tails.any (fun t => needle.toList.isPrefixOf t)

/-- Python `k in v`: key test on dicts, membership on lists, substring on
strings; `TypeError` on numbers and `None`. -/
def pyContains (v : PyVal) (k : String) : Except PyErr Bool :=
  match v with
  | .dict d => .ok (pyLookup k d).isSome
  | .list l => .ok (l.any fun x => match x with | .str s => s = k | _ => false)
  | .str s => .ok (isSubstr k s)
  | _ => .error .typeError

/-- Python `v[k]` with a string key: dict access (`KeyError` when absent),
`TypeError` on any other receiver. -/
def pySubscript (v : PyVal) (k : String) : Except PyErr PyVal :=
  match v with
  | .dict d =>
    match pyLookup k d with
    | some x => .ok x
    | Option.none => .error .keyError
  | _ => .error .typeError

/-- Python `v.get(k)`: `AttributeError` on non-dict receivers. -/
def pyGet (v : PyVal) (k : String) : Except PyErr PyVal :=
  match v with
  | .dict d => .ok (pyDictGet d k)
  | _ => .error .attributeError

/-- Lines 143-150: select the video object from the decoded body (first
element of a non-empty list; `results[0]` of a dict carrying a non-empty
`results` list, else the dict itself; `None` otherwise). -/
def selectVideoObj (data : PyVal) : PyVal :=
  match data with
  | .list (x :: _) => x
  | .dict d =>
    match pyLookup "results" d with
    | some (.list (x :: _)) => x
    | _ => .dict d
  | _ => .none

/-- Lines 154-158: first key among those given that is contained in the
video object with a truthy value. -/
def keyLoop (vo : PyVal) : List String → Except PyErr (Option PyVal)
  | [] => .ok Option.none
  | k :: rest =>
    match pyContains vo k with
    | .error e => .error e
    | .ok b =>
      if b then
        match pySubscript vo k with
        | .error e => .error e
        | .ok x => if truthy x then .ok (some x) else keyLoop vo rest
      else keyLoop vo rest

/-- Lines 160-165: `video_obj.get("tracks") or video_obj.get("captions")`,
then the first element's `transcript` field when that value is a
non-empty list of a dict with a `transcript` key. -/
def secondaryTracks (vo : PyVal) : Except PyErr (Option PyVal) :=
  match pyGet vo "tracks" with
  | .error e => .error e
  | .ok t1 =>
    match pyGet vo "captions" with
    | .error e => .error e
    | .ok t2 =>
      match pyOr t1 t2 with
      | .list (first :: _) =>
        match first with
        | .dict fd =>
          match pyLookup "transcript" fd with
          | some tv => .ok (some tv)
          | Option.none => .ok Option.none
        | _ => .ok Option.none
      | _ => .ok Option.none

/-- Lines 167-169: last recovery step (`video_obj["text"]` when dict,
present and truthy; dead in practice since the key loop already ran the
same test). -/
def thirdText (vo : PyVal) : Option PyVal :=
  match vo with
  | .dict d =>
    match pyLookup "text" d with
    | some tv => if truthy tv then some tv else Option.none
    | Option.none => Option.none
  | _ => Option.none

/-- `fetch_script` (src/main.py lines 116-178), with the credential and
the HTTP call abstracted into arguments. -/
def fetch_script (apiKey : Option String) (outcome : ReqOutcome) (video_id : String) :
    Except PyErr String :=
  match apiKey with
  | Option.none =>
    .error (.runtimeError
      "Transcript API key not configured in environment (YOUTUBE_TRANSCRIPT_API_KEY)")
  | some key =>
    if key = "" then
      .error (.runtimeError
        "Transcript API key not configured in environment (YOUTUBE_TRANSCRIPT_API_KEY)")
    else
      match outcome with
      | .timeout => .error (.runtimeError "Transcript API request timed out")
      | .reqError m => .error (.runtimeError ("Transcript API request failed: " ++ m))
      | .resp r =>
        if r.status_code ≠ 200 then
          .error (.runtimeError
            ("Transcript API error " ++ toString r.status_code ++ ": " ++ r.text))
        else
          match r.json with
          | Option.none => .error (.runtimeError "Transcript API returned invalid JSON")
          | some data =>
            let video_obj := selectVideoObj data
            if truthy video_obj = false then
              .error (.valueError "Transcript not found in API response")
            else
              match keyLoop video_obj ["transcript", "text", "tracks"] with
              | .error e => .error e
              | .ok (some raw) => finalize_script raw
              | .ok Option.none =>
                match secondaryTracks video_obj with
                | .error e => .error e
                | .ok (some raw) => finalize_script raw
                | .ok Option.none =>
                  match thirdText video_obj with
                  | some raw => finalize_script raw
                  | Option.none =>
                    .error (.valueError
                      ("Transcript not present in API response for video_id=" ++ video_id))

/-- The LLM response, as the source reads it: `output_text` present and a
string, or nothing extractable (`none` collapses a missing attribute and a
`None` value; the structured dict fallback of lines 217-233 never fires
for the SDK object responses modelled here and yields the same failure). -/
structure LLMResp where
  output_text : Option String
deriving Repr

/-- The external collaborators of one request: the cache lookup by video
id, the transcript credential, the transcript-provider call by video id,
the LLM call by prompt, and whether the cache insert raises. -/
structure Env where
  cache : String → Option (List (String × PyVal))
  apiKey : Option String
  post : String → ReqOutcome
  llm : String → Except String LLMResp
  insertFails : Bool

/-- Observable side effects of one request: `fetch_script` invocations,
prompts sent to the LLM, and cache-insert attempts/failures. -/
structure Effects where
  fetchCalls : Nat
  llmPrompts : List String
  insertAttempts : Nat
  insertFailures : Nat
deriving Repr, DecidableEq

def eff0 : Effects := ⟨0, [], 0, 0⟩

structure SummaryResult where
  summary : PyVal
  cached : Bool
deriving Repr

def MAX_CHARS : Nat := 20000

/-- Lines 193-195: hard character-budget truncation (Python slicing is by
code points, i.e. by `Char`). -/
def truncateScript (script : String) : String :=
  if MAX_CHARS < script.length then String.mk (script.toList.take MAX_CHARS) else script

/-- Lines 197-202: the fixed prompt template. -/
def buildPrompt (script : String) : String :=
  "You have to create a summary of this youtube video by using its transcript in 300-400 words in bullet points and with descriptive headings with proper structure and only write the summary.\n\nTranscript:\n"
    ++ script

/-- Lines 204-212: the guarded LLM call; any exception becomes
`RuntimeError("LLM request failed: ...")`. -/
def callLLM (llm : String → Except String LLMResp) (prompt : String) :
    Except PyErr LLMResp :=
  match llm prompt with
  | .error e => .error (.runtimeError ("LLM request failed: " ++ e))
  | .ok r => .ok r

/-- Lines 214-236: summary-text extraction; a falsy result (absent or
empty) raises. -/
def extractSummaryText (r : LLMResp) : Except PyErr String :=
  match r.output_text with
  | some t =>
    if t = "" then .error (.runtimeError "Unable to extract summary text from LLM response")
    else .ok t
  | Option.none => .error (.runtimeError "Unable to extract summary text from LLM response")

/-- The cache-miss path of `getSummary` (lines 191-247): fetch, truncate,
prompt, LLM call, extraction, best-effort insert. -/
def cacheMissRun (env : Env) (vid : String) : Except PyErr SummaryResult × Effects :=
  match fetch_script env.apiKey (env.post vid) vid with
  | .error e => (.error e, ⟨1, [], 0, 0⟩)
  | .ok script0 =>
    match callLLM env.llm (buildPrompt (truncateScript script0)) with
    | .error e => (.error e, ⟨1, [buildPrompt (truncateScript script0)], 0, 0⟩)
    | .ok resp =>
      match extractSummaryText resp with
      | .error e => (.error e, ⟨1, [buildPrompt (truncateScript script0)], 0, 0⟩)
      | .ok t =>
        if env.insertFails then
          (.ok ⟨.str t, false⟩, ⟨1, [buildPrompt (truncateScript script0)], 1, 1⟩)
        else (.ok ⟨.str t, false⟩, ⟨1, [buildPrompt (truncateScript script0)], 1, 0⟩)

/-- `getSummary` (lines 181-247): falsy extracted id → invalid input;
cache hit when the looked-up document is truthy (non-empty) AND has an
`output_text` key (line 188 tests presence, not non-emptiness); else the
cache-miss path. -/
def getSummaryRun (env : Env) (url : String) : Except PyErr SummaryResult × Effects :=
  match getId url with
  | Option.none => (.error (.valueError "Invalid YouTube URL"), eff0)
  | some vid =>
    if vid = "" then (.error (.valueError "Invalid YouTube URL"), eff0)
    else
      match env.cache vid with
      | some doc =>
        if !doc.isEmpty && (pyLookup "output_text" doc).isSome then
          (.ok ⟨pyDictGet doc "output_text", true⟩, eff0)
        else cacheMissRun env vid
      | Option.none => cacheMissRun env vid

structure HttpError where
  status : Nat
  detail : String
deriving Repr, DecidableEq

/-- Lines 262-270: the endpoint's exception-to-status mapping
(`ValueError` → 400, `RuntimeError` → 502, anything else → 500; the
generic handler's detail text is abstracted to its fixed prefix). -/
def mapErr : PyErr → HttpError
  | .valueError m => ⟨400, m⟩
  | .runtimeError m => ⟨502, m⟩
  | .attributeError => ⟨500, "An unexpected error occurred"⟩
  | .typeError => ⟨500, "An unexpected error occurred"⟩
  | .keyError => ⟨500, "An unexpected error occurred"⟩

/-- `GET /summary` (lines 256-270). -/
def summaryEndpoint (env : Env) (url : String) :
    Except HttpError SummaryResult × Effects :=
  match getSummaryRun env url with
  | (.ok r, eff) => (.ok r, eff)
  | (.error e, eff) => (.error (mapErr e), eff)

/-- Cache hit with a non-empty stored summary. -/
def envHit : Env :=
  { cache := fun _ => some [("video_id", .str "abc"), ("output_text", .str "S")]
    apiKey := some "K", post := fun _ => .timeout
    llm := fun _ => .error "down", insertFails := false }

/-- Cache hit whose stored summary is the empty string. -/
def envHitEmpty : Env :=
  { cache := fun _ => some [("video_id", .str "abc"), ("output_text", .str "")]
    apiKey := some "K", post := fun _ => .timeout
    llm := fun _ => .error "down", insertFails := false }

/-- Cache miss against a transcript provider answering 500. -/
def env500 : Env :=
  { cache := fun _ => Option.none, apiKey := some "K"
    post := fun _ => .resp ⟨500, "boom", Option.none⟩
    llm := fun _ => .error "llmdown", insertFails := false }

/-- Cache miss with the transcript credential absent. -/
def envNoKey : Env :=
  { cache := fun _ => Option.none, apiKey := Option.none
    post := fun _ => .timeout, llm := fun _ => .error "x", insertFails := false }

/-- Cache miss with a successful transcript fetch and LLM call. -/
def envOk : Env :=
  { cache := fun _ => Option.none, apiKey := some "K"
    post := fun _ => .resp ⟨200, "", some (.dict [("transcript", .str "hello")])⟩
    llm := fun _ => .ok ⟨some "SUM"⟩, insertFails := false }

/-- A 20001-character transcript, used against the truncation bound. -/
def longScript : String := String.mk (List.replicate 20001 'a')

/-! ## Part 2 : theorems -/

theorem takeWhile_all {α : Type} {p : α → Bool} :
    ∀ {l : List α}, (∀ c ∈ l, p c = true) → l.takeWhile p = l := by
  intro l h
  induction l with
  | nil => rfl
  | cons c rest ih =>
    have hc : p c = true := h c (List.mem_cons_self c rest)
    simp [List.takeWhile_cons, hc, ih fun x hx => h x (List.mem_cons_of_mem c hx)]

theorem takeWhile_append_all {α : Type} {p : α → Bool} {a b : List α}
    (h : ∀ c ∈ a, p c = true) : (a ++ b).takeWhile p = a ++ b.takeWhile p := by
  induction a with
  | nil => rfl
  | cons c rest ih =>
    have hc : p c = true := h c (List.mem_cons_self c rest)
    simp [List.takeWhile_cons, hc, ih fun x hx => h x (List.mem_cons_of_mem c hx)]

theorem dropWhile_append_all {α : Type} {p : α → Bool} {a b : List α}
    (h : ∀ c ∈ a, p c = true) : (a ++ b).dropWhile p = b.dropWhile p := by
  induction a with
  | nil => rfl
  | cons c rest ih =>
    have hc : p c = true := h c (List.mem_cons_self c rest)
    simp [List.dropWhile_cons, hc, ih fun x hx => h x (List.mem_cons_of_mem c hx)]

theorem takeWhile_append_stop {α : Type} {p : α → Bool} {a b : List α} {c : α}
    (ha : ∀ x ∈ a, p x = true) (hc : p c = false) :
    (a ++ c :: b).takeWhile p = a := by
  rw [takeWhile_append_all ha]
  simp [List.takeWhile_cons, hc]

theorem dropWhile_append_stop {α : Type} {p : α → Bool} {a b : List α} {c : α}
    (ha : ∀ x ∈ a, p x = true) (hc : p c = false) :
    (a ++ c :: b).dropWhile p = c :: b := by
  rw [dropWhile_append_all ha]
  simp [List.dropWhile_cons, hc]

theorem dropWhile_all_neg {α : Type} {p : α → Bool} :
    ∀ {l : List α}, (∀ c ∈ l, p c = false) → l.dropWhile p = l := by
  intro l h
  cases l with
  | nil => rfl
  | cons c rest => simp [List.dropWhile_cons, h c (List.mem_cons_self c rest)]

theorem drop_append_cons {α : Type} {c : α} :
    ∀ {a b : List α}, (a ++ c :: b).drop (a.length + 1) = b := by
  intro a b
  induction a with
  | nil => rfl
  | cons x rest ih =>
    simp only [List.cons_append, List.length_cons, List.drop_succ_cons]
    exact ih

theorem map_self {α : Type} {f : α → α} :
    ∀ {l : List α}, (∀ c ∈ l, f c = c) → l.map f = l := by
  intro l h
  induction l with
  | nil => rfl
  | cons c rest ih =>
    simp [h c (List.mem_cons_self c rest),
      ih fun x hx => h x (List.mem_cons_of_mem c hx)]

theorem splitOnChar_ne_nil {sep : Char} : ∀ {l : List Char}, splitOnChar sep l ≠ [] := by
  intro l
  cases l with
  | nil => simp [splitOnChar]
  | cons c rest =>
    simp only [splitOnChar]
    match h : splitOnChar sep rest with
    | [] => simp
    | x :: t =>
      by_cases hc : c = sep <;> simp [hc]

theorem splitOnChar_no_sep {sep : Char} :
    ∀ {l : List Char}, (∀ c ∈ l, c ≠ sep) → splitOnChar sep l = [l] := by
  intro l h
  induction l with
  | nil => rfl
  | cons c rest ih =>
    have hrest : splitOnChar sep rest = [rest] :=
      ih fun x hx => h x (List.mem_cons_of_mem c hx)
    simp [splitOnChar, hrest, h c (List.mem_cons_self c rest)]

theorem splitOnChar_append {sep : Char} {b : List Char} :
    ∀ {a : List Char}, (∀ c ∈ a, c ≠ sep) →
      splitOnChar sep (a ++ sep :: b) = a :: splitOnChar sep b := by
  intro a h
  induction a with
  | nil =>
    simp only [List.nil_append, splitOnChar]
    match hb : splitOnChar sep b with
    | [] => exact absurd hb splitOnChar_ne_nil
    | x :: t => simp
  | cons c rest ih =>
    have hrest := ih fun x hx => h x (List.mem_cons_of_mem c hx)
    simp [splitOnChar, hrest, h c (List.mem_cons_self c rest)]

theorem plainToken_chars {s : String} (h : plainToken s = true) :
    ∀ c ∈ s.toList, c.isAlphanum = true ∨ c = '-' ∨ c = '_' := by
  simp only [plainToken, Bool.and_eq_true, List.all_eq_true] at h
  intro c hc
  have h3 := h.2 c hc
  simp only [Bool.or_eq_true, decide_eq_true_eq] at h3
  tauto

theorem plainToken_ne_nil {s : String} (h : plainToken s = true) : s.toList ≠ [] := by
  simp only [plainToken, Bool.and_eq_true] at h
  simpa using h.1

/-- Every character of a plain token avoids the URL delimiter characters.
Stated once and reused by the per-URL-shape computations. -/
theorem plainToken_delim {s : String} (h : plainToken s = true) :
    ∀ c ∈ s.toList, c ≠ '#' ∧ c ≠ ':' ∧ c ≠ '/' ∧ c ≠ '?' ∧ c ≠ '&' ∧
      c ≠ '=' ∧ c ≠ '+' ∧ c ≠ '@' := by
  intro c hc
  rcases plainToken_chars h c hc with halnum | heq | heq
  · refine ⟨?_, ?_, ?_, ?_, ?_, ?_, ?_, ?_⟩ <;>
      (intro hbad; rw [hbad] at halnum; simp [Char.isAlphanum, Char.isAlpha,
        Char.isUpper, Char.isLower, Char.isDigit] at halnum)
  · subst heq; refine ⟨?_, ?_, ?_, ?_, ?_, ?_, ?_, ?_⟩ <;> decide
  · subst heq; refine ⟨?_, ?_, ?_, ?_, ?_, ?_, ?_, ?_⟩ <;> decide

theorem bne_true_of_ne {c d : Char} (h : c ≠ d) : (c != d) = true := by
  simp [bne_iff_ne, h]

theorem dropWhile_all {α : Type} {p : α → Bool} :
    ∀ {l : List α}, (∀ c ∈ l, p c = true) → l.dropWhile p = [] := by
  intro l h
  induction l with
  | nil => rfl
  | cons c rest ih =>
    simp [List.dropWhile_cons, h c (List.mem_cons_self c rest),
      ih fun x hx => h x (List.mem_cons_of_mem c hx)]

theorem dropWhile_eq_self_of_takeWhile_nil {α : Type} {p : α → Bool} {l : List α}
    (h : l.takeWhile p = []) : l.dropWhile p = l := by
  cases l with
  | nil => rfl
  | cons c rest =>
    by_cases hc : p c = true
    · simp [List.takeWhile_cons, hc] at h
    · simp [List.dropWhile_cons, Bool.eq_false_iff.mpr hc]

theorem mk_toList (s : String) : String.mk s.toList = s := rfl

theorem schemeSplit_https (tail : List Char) :
    schemeSplit ("https".toList ++ ':' :: tail) = tail := by
  unfold schemeSplit
  rw [takeWhile_append_stop (by decide) (by decide)]
  have hcond : ("https".toList).length < ("https".toList ++ ':' :: tail).length ∧
      validScheme "https".toList = true := by
    constructor
    · rw [List.length_append]
      have h1 : 0 < (':' :: tail).length := by simp
      omega
    · decide
  rw [if_pos hcond, drop_append_cons]

theorem splitNetloc_slashes (x : List Char) :
    splitNetloc ('/' :: '/' :: x) =
      (x.takeWhile (fun c => c != '/' && c != '?'),
       x.dropWhile (fun c => c != '/' && c != '?')) := by
  unfold splitNetloc
  have hc : List.take 2 ('/' :: '/' :: x) = ['/', '/'] := rfl
  rw [if_pos hc]; rfl

/-- `urlparse` on an `https://host...` URL whose host contains no
delimiter characters and whose remainder starts at a path or query
boundary. -/
theorem urlparse_https (host rest : List Char)
    (hhost : ∀ c ∈ host, c ≠ '#' ∧ c ≠ '/' ∧ c ≠ '?')
    (hrest : ∀ c ∈ rest, c ≠ '#')
    (hrest0 : rest.takeWhile (fun c => c != '/' && c != '?') = []) :
    urlparse ("https://".toList ++ (host ++ rest)) =
      { hostname := hostFromNetloc host
        path := rest.takeWhile (fun c => c != '?')
        query := (rest.dropWhile (fun c => c != '?')).drop 1 } := by
  have hall : ∀ c ∈ "https://".toList ++ (host ++ rest), (c != '#') = true := by
    refine List.forall_mem_append.mpr ⟨by decide, List.forall_mem_append.mpr ⟨?_, ?_⟩⟩
    · exact fun c hc => bne_true_of_ne (hhost c hc).1
    · exact fun c hc => bne_true_of_ne (hrest c hc)
  have h0 : ("https://".toList ++ (host ++ rest)).takeWhile (fun c => c != '#')
      = "https".toList ++ ':' :: ('/' :: '/' :: (host ++ rest)) := by
    rw [takeWhile_all hall]; rfl
  have hnet : (host ++ rest).takeWhile (fun c => c != '/' && c != '?') = host := by
    rw [takeWhile_append_all, hrest0, List.append_nil]
    intro c hc
    have h2 := hhost c hc
    simp [bne_iff_ne, h2.2.1, h2.2.2]
  have hnet2 : (host ++ rest).dropWhile (fun c => c != '/' && c != '?') = rest := by
    rw [dropWhile_append_all, dropWhile_eq_self_of_takeWhile_nil hrest0]
    intro c hc
    have h2 := hhost c hc
    simp [bne_iff_ne, h2.2.1, h2.2.2]
  simp only [urlparse]
  rw [h0, schemeSplit_https, splitNetloc_slashes, hnet, hnet2]

theorem toList_append (a b : String) : (a ++ b).toList = a.toList ++ b.toList := rfl

theorem qsPair_v (idL : List Char) (hne : idL ≠ [])
    (hplus : ∀ c ∈ idL, c ≠ '+') :
    qsPair ('v' :: '=' :: idL) = some (['v'], idL) := by
  have hup : unquote_plus idL = idL := map_self (fun c hc => if_neg (hplus c hc))
  unfold qsPair
  have hdw : List.dropWhile (fun c => c != '=') ('v' :: '=' :: idL) = '=' :: idL := by
    simp [List.dropWhile_cons]
  have htw : List.takeWhile (fun c => c != '=') ('v' :: '=' :: idL) = ['v'] := by
    simp [List.takeWhile_cons]
  rw [hdw]
  simp only [htw, if_neg hne, hup]
  rfl

theorem parse_qs_single_v (idL : List Char) (hne : idL ≠ [])
    (hamp : ∀ c ∈ idL, c ≠ '&') (hplus : ∀ c ∈ idL, c ≠ '+') :
    parse_qs ("v=".toList ++ idL) = [("v".toList, [idL])] := by
  have hsplit : splitOnChar '&' ("v=".toList ++ idL) = ["v=".toList ++ idL] :=
    splitOnChar_no_sep (List.forall_mem_append.mpr ⟨by decide, hamp⟩)
  unfold parse_qs
  rw [hsplit]
  simp [List.filterMap_cons, qsPair_v idL hne hplus, qsInsert]

theorem parse_qs_two_v (id1L id2L : List Char) (hne1 : id1L ≠ []) (hne2 : id2L ≠ [])
    (hamp1 : ∀ c ∈ id1L, c ≠ '&') (hamp2 : ∀ c ∈ id2L, c ≠ '&')
    (hplus1 : ∀ c ∈ id1L, c ≠ '+') (hplus2 : ∀ c ∈ id2L, c ≠ '+') :
    parse_qs (("v=".toList ++ id1L) ++ '&' :: ("v=".toList ++ id2L)) =
      [("v".toList, [id1L, id2L])] := by
  have hsplit : splitOnChar '&' (("v=".toList ++ id1L) ++ '&' :: ("v=".toList ++ id2L))
      = ("v=".toList ++ id1L) :: splitOnChar '&' ("v=".toList ++ id2L) :=
    splitOnChar_append (List.forall_mem_append.mpr ⟨by decide, hamp1⟩)
  have hsplit2 : splitOnChar '&' ("v=".toList ++ id2L) = ["v=".toList ++ id2L] :=
    splitOnChar_no_sep (List.forall_mem_append.mpr ⟨by decide, hamp2⟩)
  unfold parse_qs
  rw [hsplit, hsplit2]
  simp [List.filterMap_cons, qsPair_v id1L hne1 hplus1, qsPair_v id2L hne2 hplus2,
    qsInsert]

theorem getId_watch_www (id : String) (h : plainToken id = true) :
    getId ("https://www.youtube.com/watch?v=" ++ id) = some id := by
  have hd := plainToken_delim h
  have hne := plainToken_ne_nil h
  have e1 : ("https://www.youtube.com/watch?v=" ++ id).toList
      = "https://".toList ++ ("www.youtube.com".toList ++
          ("/watch".toList ++ '?' :: ("v=".toList ++ id.toList))) := rfl
  have hup : urlparse (("https://www.youtube.com/watch?v=" ++ id).toList)
      = { hostname := some "www.youtube.com".toList
          path := "/watch".toList
          query := "v=".toList ++ id.toList } := by
    have hrest : ∀ c ∈ "/watch".toList ++ '?' :: ("v=".toList ++ id.toList), c ≠ '#' :=
      List.forall_mem_append.mpr ⟨by decide, List.forall_mem_cons.mpr ⟨by decide,
        List.forall_mem_append.mpr ⟨by decide, fun c hc => (hd c hc).1⟩⟩⟩
    have hrest0 : List.takeWhile (fun c => c != '/' && c != '?')
        ("/watch".toList ++ '?' :: ("v=".toList ++ id.toList)) = [] := rfl
    rw [e1, urlparse_https "www.youtube.com".toList
      ("/watch".toList ++ '?' :: ("v=".toList ++ id.toList)) (by decide) hrest hrest0]
    rw [takeWhile_append_stop (by decide) (by decide),
      dropWhile_append_stop (by decide) (by decide)]
    rfl
  unfold getId getIdL
  rw [hup]
  unfold getIdParts
  rw [if_pos (Or.inl rfl)]
  rw [parse_qs_single_v id.toList hne
    (fun c hc => (hd c hc).2.2.2.2.1) (fun c hc => (hd c hc).2.2.2.2.2.2.1)]
  simp [alookup, mk_toList]

theorem getId_watch_bare (id : String) (h : plainToken id = true) :
    getId ("https://youtube.com/watch?v=" ++ id) = some id := by
  have hd := plainToken_delim h
  have hne := plainToken_ne_nil h
  have e1 : ("https://youtube.com/watch?v=" ++ id).toList
      = "https://".toList ++ ("youtube.com".toList ++
          ("/watch".toList ++ '?' :: ("v=".toList ++ id.toList))) := rfl
  have hup : urlparse (("https://youtube.com/watch?v=" ++ id).toList)
      = { hostname := some "youtube.com".toList
          path := "/watch".toList
          query := "v=".toList ++ id.toList } := by
    have hrest : ∀ c ∈ "/watch".toList ++ '?' :: ("v=".toList ++ id.toList), c ≠ '#' :=
      List.forall_mem_append.mpr ⟨by decide, List.forall_mem_cons.mpr ⟨by decide,
        List.forall_mem_append.mpr ⟨by decide, fun c hc => (hd c hc).1⟩⟩⟩
    have hrest0 : List.takeWhile (fun c => c != '/' && c != '?')
        ("/watch".toList ++ '?' :: ("v=".toList ++ id.toList)) = [] := rfl
    rw [e1, urlparse_https "youtube.com".toList
      ("/watch".toList ++ '?' :: ("v=".toList ++ id.toList)) (by decide) hrest hrest0]
    rw [takeWhile_append_stop (by decide) (by decide),
      dropWhile_append_stop (by decide) (by decide)]
    rfl
  unfold getId getIdL
  rw [hup]
  unfold getIdParts
  rw [if_pos (Or.inr rfl)]
  rw [parse_qs_single_v id.toList hne
    (fun c hc => (hd c hc).2.2.2.2.1) (fun c hc => (hd c hc).2.2.2.2.2.2.1)]
  simp [alookup, mk_toList]

theorem getId_multi_v (id id2 : String) (h : plainToken id = true)
    (h2 : plainToken id2 = true) :
    getId ("https://www.youtube.com/watch?v=" ++ id ++ "&v=" ++ id2) = some id := by
  have hd := plainToken_delim h
  have hd2 := plainToken_delim h2
  have hne := plainToken_ne_nil h
  have hne2 := plainToken_ne_nil h2
  have e1 : ("https://www.youtube.com/watch?v=" ++ id ++ "&v=" ++ id2).toList
      = "https://".toList ++ ("www.youtube.com".toList ++ ("/watch".toList ++ '?' ::
          (("v=".toList ++ id.toList) ++ '&' :: ("v=".toList ++ id2.toList)))) := by
    simp only [toList_append, List.append_assoc]
    rfl
  have hup : urlparse (("https://www.youtube.com/watch?v=" ++ id ++ "&v=" ++ id2).toList)
      = { hostname := some "www.youtube.com".toList
          path := "/watch".toList
          query := ("v=".toList ++ id.toList) ++ '&' :: ("v=".toList ++ id2.toList) } := by
    have hrest : ∀ c ∈ "/watch".toList ++ '?' ::
        (("v=".toList ++ id.toList) ++ '&' :: ("v=".toList ++ id2.toList)), c ≠ '#' :=
      List.forall_mem_append.mpr ⟨by decide, List.forall_mem_cons.mpr ⟨by decide,
        List.forall_mem_append.mpr ⟨List.forall_mem_append.mpr ⟨by decide,
          fun c hc => (hd c hc).1⟩, List.forall_mem_cons.mpr ⟨by decide,
          List.forall_mem_append.mpr ⟨by decide, fun c hc => (hd2 c hc).1⟩⟩⟩⟩⟩
    have hrest0 : List.takeWhile (fun c => c != '/' && c != '?') ("/watch".toList ++ '?' ::
        (("v=".toList ++ id.toList) ++ '&' :: ("v=".toList ++ id2.toList))) = [] := rfl
    rw [e1, urlparse_https "www.youtube.com".toList ("/watch".toList ++ '?' ::
      (("v=".toList ++ id.toList) ++ '&' :: ("v=".toList ++ id2.toList)))
      (by decide) hrest hrest0]
    rw [takeWhile_append_stop (by decide) (by decide),
      dropWhile_append_stop (by decide) (by decide)]
    rfl
  unfold getId getIdL
  rw [hup]
  unfold getIdParts
  rw [if_pos (Or.inl rfl)]
  rw [parse_qs_two_v id.toList id2.toList hne hne2
    (fun c hc => (hd c hc).2.2.2.2.1) (fun c hc => (hd2 c hc).2.2.2.2.1)
    (fun c hc => (hd c hc).2.2.2.2.2.2.1) (fun c hc => (hd2 c hc).2.2.2.2.2.2.1)]
  simp [alookup, mk_toList]

theorem getIdParts_youtu_be (path q : List Char) :
    getIdParts { hostname := some "youtu.be".toList, path := path, query := q }
      = some (path.dropWhile (fun c => c == '/')) := rfl

theorem getId_youtu_be (id : String) (h : plainToken id = true) :
    getId ("https://youtu.be/" ++ id) = some id := by
  have hd := plainToken_delim h
  have e1 : ("https://youtu.be/" ++ id).toList
      = "https://".toList ++ ("youtu.be".toList ++ ('/' :: id.toList)) := rfl
  have hpathall : ∀ c ∈ '/' :: id.toList, (c != '?') = true :=
    List.forall_mem_cons.mpr ⟨by decide, fun c hc => bne_true_of_ne (hd c hc).2.2.2.1⟩
  have hup : urlparse (("https://youtu.be/" ++ id).toList)
      = { hostname := some "youtu.be".toList
          path := '/' :: id.toList
          query := [] } := by
    have hrest : ∀ c ∈ '/' :: id.toList, c ≠ '#' :=
      List.forall_mem_cons.mpr ⟨by decide, fun c hc => (hd c hc).1⟩
    have hrest0 : List.takeWhile (fun c => c != '/' && c != '?') ('/' :: id.toList) = [] := rfl
    rw [e1, urlparse_https "youtu.be".toList ('/' :: id.toList) (by decide) hrest hrest0]
    rw [takeWhile_all hpathall, dropWhile_all hpathall]
    rfl
  unfold getId getIdL
  rw [hup]
  rw [getIdParts_youtu_be]
  have hdrop : List.dropWhile (fun c => c == '/') ('/' :: id.toList) = id.toList := by
    simp only [List.dropWhile_cons]
    simp only [show (('/' : Char) == '/') = true from rfl, if_true]
    exact dropWhile_all_neg fun c hc => by
      have h3 := (hd c hc).2.2.1
      simp [h3]
  rw [hdrop]
  rfl

theorem dropWhile_head_stop {α : Type} {p : α → Bool} {l : List α} {c : α}
    (hc : l.head? = some c) (hp : p c = false) : l.dropWhile p = l := by
  cases l with
  | nil => rfl
  | cons x t =>
    simp only [List.head?_cons, Option.some.injEq] at hc
    subst hc
    simp [List.dropWhile_cons, hp]

/-- Python `strip("/")` removes exactly the maximal slash runs on both
ends. -/
theorem stripSlashes_eq (l r core : List Char)
    (hl : ∀ c ∈ l, (c == '/') = true) (hr : ∀ c ∈ r, (c == '/') = true)
    (hhead : ∃ c, core.head? = some c ∧ (c == '/') = false)
    (hlast : ∃ c, core.reverse.head? = some c ∧ (c == '/') = false) :
    pyStripSlashes (l ++ (core ++ r)) = core := by
  obtain ⟨c0, hc0, hc0f⟩ := hhead
  obtain ⟨c1, hc1, hc1f⟩ := hlast
  unfold pyStripSlashes
  rw [dropWhile_append_all hl]
  have hhead2 : (core ++ r).head? = some c0 := by
    cases core with
    | nil => simp at hc0
    | cons x t => simpa using hc0
  rw [dropWhile_head_stop hhead2 hc0f]
  rw [List.reverse_append]
  rw [dropWhile_append_all fun c hc => hr c (List.mem_reverse.mp hc)]
  rw [dropWhile_head_stop hc1 hc1f, List.reverse_reverse]

/-- Splitting the slash-stripped path of a `/seg/ID` (optionally
slash-suffixed) path yields exactly the two segments. -/
theorem splitStrip_seg (segL idL r x : List Char)
    (hx : x = '/' :: ((segL ++ '/' :: idL) ++ r))
    (hsegSlash : ∀ c ∈ segL, c ≠ '/') (hsegNe : segL ≠ [])
    (hne : idL ≠ []) (hid : ∀ c ∈ idL, c ≠ '/')
    (hr : ∀ c ∈ r, (c == '/') = true) :
    splitOnChar '/' (pyStripSlashes x) = [segL, idL] := by
  obtain ⟨s0, st, hs⟩ := List.exists_cons_of_ne_nil hsegNe
  obtain ⟨d, dt, hdt⟩ := List.exists_cons_of_ne_nil
    (show idL.reverse ≠ [] by simpa using hne)
  have hhead : ∃ c, (segL ++ '/' :: idL).head? = some c ∧ (c == '/') = false := by
    refine ⟨s0, ?_, ?_⟩
    · rw [hs]; rfl
    · have : s0 ∈ segL := hs ▸ List.mem_cons_self s0 st
      simp [hsegSlash s0 this]
  have hlast : ∃ c, (segL ++ '/' :: idL).reverse.head? = some c ∧ (c == '/') = false := by
    refine ⟨d, ?_, ?_⟩
    · rw [List.reverse_append, List.reverse_cons, hdt]; rfl
    · have : d ∈ idL := List.mem_reverse.mp (hdt ▸ List.mem_cons_self d dt)
      simp [hid d this]
  have hstrip : pyStripSlashes x = segL ++ '/' :: idL := by
    rw [hx]
    exact stripSlashes_eq ['/'] r (segL ++ '/' :: idL) (by decide) hr hhead hlast
  rw [hstrip, splitOnChar_append hsegSlash, splitOnChar_no_sep hid]

theorem getId_seg_gen (seg : String)
    (hset : seg.toList = "shorts".toList ∨ seg.toList = "embed".toList ∨
      seg.toList = "live".toList)
    (id : String) (h : plainToken id = true)
    (e1 : ("https://www.youtube.com/" ++ seg ++ "/" ++ id).toList
      = "https://".toList ++ ("www.youtube.com".toList ++
          ('/' :: (seg.toList ++ '/' :: id.toList)))) :
    getId ("https://www.youtube.com/" ++ seg ++ "/" ++ id) = some id := by
  have hd := plainToken_delim h
  have hne := plainToken_ne_nil h
  have hsegHash : ∀ c ∈ seg.toList, c ≠ '#' := by
    rcases hset with hs | hs | hs <;> rw [hs] <;> decide
  have hsegQ : ∀ c ∈ seg.toList, (c != '?') = true := by
    rcases hset with hs | hs | hs <;> rw [hs] <;> decide
  have hsegSlash : ∀ c ∈ seg.toList, c ≠ '/' := by
    rcases hset with hs | hs | hs <;> rw [hs] <;> decide
  have hsegNe : seg.toList ≠ [] := by
    rcases hset with hs | hs | hs <;> rw [hs] <;> decide
  have hpathall : ∀ c ∈ '/' :: (seg.toList ++ '/' :: id.toList), (c != '?') = true :=
    List.forall_mem_cons.mpr ⟨by decide, List.forall_mem_append.mpr ⟨hsegQ,
      List.forall_mem_cons.mpr ⟨by decide,
        fun c hc => bne_true_of_ne (hd c hc).2.2.2.1⟩⟩⟩
  have hup : urlparse (("https://www.youtube.com/" ++ seg ++ "/" ++ id).toList)
      = { hostname := some "www.youtube.com".toList
          path := '/' :: (seg.toList ++ '/' :: id.toList)
          query := [] } := by
    have hrest : ∀ c ∈ '/' :: (seg.toList ++ '/' :: id.toList), c ≠ '#' :=
      List.forall_mem_cons.mpr ⟨by decide, List.forall_mem_append.mpr ⟨hsegHash,
        List.forall_mem_cons.mpr ⟨by decide, fun c hc => (hd c hc).1⟩⟩⟩
    have hrest0 : List.takeWhile (fun c => c != '/' && c != '?')
        ('/' :: (seg.toList ++ '/' :: id.toList)) = [] := rfl
    rw [e1, urlparse_https "www.youtube.com".toList
      ('/' :: (seg.toList ++ '/' :: id.toList)) (by decide) hrest hrest0]
    rw [takeWhile_all hpathall, dropWhile_all hpathall]
    rfl
  unfold getId getIdL
  rw [hup]
  unfold getIdParts
  rw [if_pos (Or.inl rfl)]
  rw [splitStrip_seg seg.toList id.toList [] ('/' :: (seg.toList ++ '/' :: id.toList))
    (by simp) hsegSlash hsegNe hne (fun c hc => (hd c hc).2.2.1) (by simp)]
  have hcond : seg.toList = "live".toList ∨ seg.toList = "embed".toList ∨
      seg.toList = "shorts".toList := by tauto
  simp [alookup, parse_qs, splitOnChar, qsPair, hcond, mk_toList]
  tauto

theorem getId_shorts_trailing (id : String) (h : plainToken id = true) :
    getId ("https://www.youtube.com/shorts/" ++ id ++ "/") = some id := by
  have hd := plainToken_delim h
  have hne := plainToken_ne_nil h
  have e1 : ("https://www.youtube.com/shorts/" ++ id ++ "/").toList
      = "https://".toList ++ ("www.youtube.com".toList ++
          ('/' :: ("shorts".toList ++ '/' :: (id.toList ++ ['/'])))) := by
    simp only [toList_append, List.append_assoc]
    rfl
  have hpathall : ∀ c ∈ '/' :: ("shorts".toList ++ '/' :: (id.toList ++ ['/'])),
      (c != '?') = true :=
    List.forall_mem_cons.mpr ⟨by decide, List.forall_mem_append.mpr ⟨by decide,
      List.forall_mem_cons.mpr ⟨by decide, List.forall_mem_append.mpr
        ⟨fun c hc => bne_true_of_ne (hd c hc).2.2.2.1, by decide⟩⟩⟩⟩
  have hup : urlparse (("https://www.youtube.com/shorts/" ++ id ++ "/").toList)
      = { hostname := some "www.youtube.com".toList
          path := '/' :: ("shorts".toList ++ '/' :: (id.toList ++ ['/']))
          query := [] } := by
    have hrest : ∀ c ∈ '/' :: ("shorts".toList ++ '/' :: (id.toList ++ ['/'])), c ≠ '#' :=
      List.forall_mem_cons.mpr ⟨by decide, List.forall_mem_append.mpr ⟨by decide,
        List.forall_mem_cons.mpr ⟨by decide, List.forall_mem_append.mpr
          ⟨fun c hc => (hd c hc).1, by decide⟩⟩⟩⟩
    have hrest0 : List.takeWhile (fun c => c != '/' && c != '?')
        ('/' :: ("shorts".toList ++ '/' :: (id.toList ++ ['/']))) = [] := rfl
    rw [e1, urlparse_https "www.youtube.com".toList
      ('/' :: ("shorts".toList ++ '/' :: (id.toList ++ ['/']))) (by decide) hrest hrest0]
    rw [takeWhile_all hpathall, dropWhile_all hpathall]
    rfl
  unfold getId getIdL
  rw [hup]
  unfold getIdParts
  rw [if_pos (Or.inl rfl)]
  rw [splitStrip_seg "shorts".toList id.toList ['/']
    ('/' :: ("shorts".toList ++ '/' :: (id.toList ++ ['/'])))
    (by simp) (by decide) (by decide) hne (fun c hc => (hd c hc).2.2.1) (by decide)]
  simp [alookup, parse_qs, splitOnChar, qsPair, mk_toList]

theorem getId_other_host (u : String)
    (h1 : (urlparse u.toList).hostname ≠ some "www.youtube.com".toList)
    (h2 : (urlparse u.toList).hostname ≠ some "youtube.com".toList)
    (h3 : (urlparse u.toList).hostname ≠ some "youtu.be".toList) :
    getId u = none := by
  unfold getId getIdL getIdParts
  have hno : ¬((urlparse u.toList).hostname = some "www.youtube.com".toList ∨
      (urlparse u.toList).hostname = some "youtube.com".toList) := by tauto
  rw [if_neg hno, if_neg h3]
  rfl

/-- Claim C2: for each of the six supported URL forms the extractor
returns exactly the embedded id; with several `v` query parameters the
first is returned; trailing slashes are stripped before the path is
segmented; and any other host (including unparseable strings, whose
hostname is absent) yields `none` rather than an error. -/
theorem c2_url_extraction :
    (∀ id : String, plainToken id = true →
      getId ("https://www.youtube.com/watch?v=" ++ id) = some id ∧
      getId ("https://youtube.com/watch?v=" ++ id) = some id ∧
      getId ("https://youtu.be/" ++ id) = some id ∧
      getId ("https://www.youtube.com/shorts/" ++ id) = some id ∧
      getId ("https://www.youtube.com/embed/" ++ id) = some id ∧
      getId ("https://www.youtube.com/live/" ++ id) = some id ∧
      (∀ id2 : String, plainToken id2 = true →
        getId ("https://www.youtube.com/watch?v=" ++ id ++ "&v=" ++ id2) = some id) ∧
      getId ("https://www.youtube.com/shorts/" ++ id ++ "/") = some id) ∧
    (∀ u : String,
      (urlparse u.toList).hostname ≠ some "www.youtube.com".toList →
      (urlparse u.toList).hostname ≠ some "youtube.com".toList →
      (urlparse u.toList).hostname ≠ some "youtu.be".toList →
      getId u = none) := by
  constructor
  · intro id h
    refine ⟨getId_watch_www id h, getId_watch_bare id h, getId_youtu_be id h, ?_, ?_, ?_,
      fun id2 h2 => getId_multi_v id id2 h h2, getId_shorts_trailing id h⟩
    · exact getId_seg_gen "shorts" (Or.inl rfl) id h rfl
    · exact getId_seg_gen "embed" (Or.inr (Or.inl rfl)) id h rfl
    · exact getId_seg_gen "live" (Or.inr (Or.inr rfl)) id h rfl
  · exact getId_other_host

/-- Witness for C2 at concrete inputs. -/
theorem c2_url_extraction_witness :
    getId "https://www.youtube.com/watch?v=dQw4w9WgXcQ" = some "dQw4w9WgXcQ" ∧
    getId "https://youtu.be/dQw4w9WgXcQ" = some "dQw4w9WgXcQ" ∧
    getId "https://www.youtube.com/watch?v=a1&v=b2" = some "a1" ∧
    getId "https://example.com/watch?v=abc" = none := by
  refine ⟨?_, ?_, ?_, ?_⟩
  · exact (c2_url_extraction.1 "dQw4w9WgXcQ" (by decide)).1
  · exact (c2_url_extraction.1 "dQw4w9WgXcQ" (by decide)).2.2.1
  · exact (c2_url_extraction.1 "a1" (by decide)).2.2.2.2.2.2.1 "b2" (by decide)
  · exact c2_url_extraction.2 "https://example.com/watch?v=abc"
      (by decide) (by decide) (by decide)

theorem sizeOf_pyLookup {k : String} : ∀ {d : List (String × PyVal)} {v : PyVal},
    pyLookup k d = some v → sizeOf v < sizeOf d := by
  intro d
  induction d with
  | nil => intro v h; simp [pyLookup] at h
  | cons kv rest ih =>
    intro v h
    obtain ⟨k', v'⟩ := kv
    simp only [pyLookup] at h
    by_cases hk : k' = k
    · rw [if_pos hk] at h
      injection h with h
      subst h
      simp
      omega
    · rw [if_neg hk] at h
      have := ih h
      simp
      omega

theorem strVal_of_falsy {v : PyVal} (h : truthy v = false) : strVal v = Option.none := by
  cases v with
  | str s =>
    simp only [truthy, bne_eq_false_iff_eq] at h
    simp [strVal, h]
  | none => rfl
  | int n => rfl
  | list l => cases l <;> rfl
  | dict d => cases d <;> rfl

theorem contribSpec_dict_truthy {d : List (String × PyVal)} {s : String}
    (hs : resolvedField d = .str s) (hsne : s ≠ "") :
    contribSpec (.dict d) = some (pyStrip s) := by
  unfold resolvedField pyOr at hs
  simp only [contribSpec]
  by_cases ht : truthy (pyDictGet d "text") = true
  · rw [if_pos ht] at hs
    rw [hs]
    simp [strVal, hsne]
  · have htf : truthy (pyDictGet d "text") = false := by
      simpa using ht
    rw [if_neg (by simp [htf])] at hs
    rw [strVal_of_falsy htf]
    by_cases hc : truthy (pyDictGet d "caption") = true
    · rw [if_pos hc] at hs
      rw [hs]
      simp [strVal, hsne]
    · have hcf : truthy (pyDictGet d "caption") = false := by simpa using hc
      rw [if_neg (by simp [hcf])] at hs
      injection hs with hs
      exact absurd hs.symm hsne

theorem contribSpec_dict_falsy {d : List (String × PyVal)}
    (hf : truthy (resolvedField d) = false) :
    contribSpec (.dict d) = Option.none := by
  unfold resolvedField pyOr at hf
  by_cases ht : truthy (pyDictGet d "text") = true
  · rw [if_pos ht] at hf
    rw [ht] at hf
    cases hf
  · have htf : truthy (pyDictGet d "text") = false := by simpa using ht
    rw [if_neg (by simp [htf])] at hf
    by_cases hc : truthy (pyDictGet d "caption") = true
    · rw [if_pos hc] at hf
      rw [hc] at hf
      cases hf
    · have hcf : truthy (pyDictGet d "caption") = false := by simpa using hc
      simp only [contribSpec]
      rw [strVal_of_falsy htf, strVal_of_falsy hcf]
      rfl

/-- On safe elements the collection loop equals the spec-side element
contribution map. -/
theorem listParts_safe : ∀ (items : List PyVal),
    (∀ it ∈ items, listItemSafe it = true) →
    listParts items = .ok (items.filterMap contribSpec) := by
  intro items h
  induction items with
  | nil => rfl
  | cons it rest ih =>
    have hrest := ih fun x hx => h x (List.mem_cons_of_mem it hx)
    have hit := h it (List.mem_cons_self it rest)
    cases it with
    | str s => simp [listParts, hrest, List.filterMap_cons, contribSpec]
    | none => simp [listParts, hrest, List.filterMap_cons, contribSpec]
    | int n => simp [listParts, hrest, List.filterMap_cons, contribSpec]
    | list l => simp [listParts, hrest, List.filterMap_cons, contribSpec]
    | dict d =>
      by_cases htr : truthy (resolvedField d) = true
      · have hstr : ∃ s, resolvedField d = .str s := by
          cases hres : resolvedField d with
          | str s => exact ⟨s, rfl⟩
          | none => rw [hres] at htr; cases htr
          | int n =>
            simp only [listItemSafe, hres] at hit
            rw [hres] at htr
            simp [htr] at hit
          | list l =>
            simp only [listItemSafe, hres] at hit
            rw [hres] at htr
            simp [htr] at hit
          | dict d2 =>
            simp only [listItemSafe, hres] at hit
            rw [hres] at htr
            simp [htr] at hit
        obtain ⟨s, hs⟩ := hstr
        have hsne : s ≠ "" := by
          rw [hs] at htr
          simpa [truthy] using htr
        simp only [listParts, hs, htr, hrest]
        rw [hs] at htr
        simp [htr, List.filterMap_cons, contribSpec_dict_truthy hs hsne]
      · have hf : truthy (resolvedField d) = false := by simpa using htr
        simp [listParts, hf, hrest, List.filterMap_cons, contribSpec_dict_falsy hf]

/-- Claim C5: the four Normalizer equations hold: a plain string
normalizes to its trimmed self; `[{"text": "a "}, {"text": " b"}]`
normalizes to `"a b"`; `{"transcript": "hello"}` recurses into the
`transcript` field and yields `"hello"`; and `{}` raises a failure
(`ValueError: Unsupported transcript format`). -/
theorem c5_normalizer_equations :
    (∀ s : String, normalize_transcript (.str s) = .ok (pyStrip s)) ∧
    normalize_transcript (.list [.dict [("text", .str "a ")], .dict [("text", .str " b")]])
      = .ok "a b" ∧
    normalize_transcript (.dict [("transcript", .str "hello")]) = .ok "hello" ∧
    normalize_transcript (.dict []) = .error (.valueError "Unsupported transcript format") := by
  refine ⟨fun s => ?_, ?_, ?_, ?_⟩
  · simp [normalize_transcript]
  · simp only [normalize_transcript]
    rfl
  · simp [normalize_transcript, pyLookup]
    rfl
  · simp [normalize_transcript, pyLookup, dictFallback, dictTexts, sjoin]
    rfl

/-- Claim C4 counterexample: an element whose `text` field is present but
empty IS resolved via its `caption` field (Python `or` tests truthiness,
not presence), contradicting the claim that a present-but-empty `text`
field blocks the fall-through to `caption`. -/
theorem c4_counterexample :
    normalize_transcript (.list [.dict [("text", .str ""), ("caption", .str "hi")]])
      = .ok "hi" := by
  simp only [normalize_transcript]
  rfl

/-- Claim C4 (amended): on a sequence whose keyed elements resolve their
recognized fields to strings or falsy values, each string element
contributes its trimmed self, each keyed element contributes the trimmed
value of the first recognized field (`text`, then `caption`) holding a
truthy (non-empty string) value, all other elements are skipped, and the
result is the trimmed single-space join of the contributions. -/
theorem c4_list_branch_amended (items : List PyVal)
    (h : ∀ it ∈ items, listItemSafe it = true) :
    normalize_transcript (.list items)
      = .ok (pyStrip (sjoin (items.filterMap contribSpec))) := by
  simp only [normalize_transcript, normList]
  rw [listParts_safe items h]

/-- Witness for C4 (amended) at a concrete sequence. -/
theorem c4_list_branch_amended_witness :
    normalize_transcript (.list [.str "x", .dict [("text", .str "a ")],
      .dict [("text", .str ""), ("caption", .str " b")], .int 7])
      = .ok "x a b" := by
  have h := c4_list_branch_amended
    [.str "x", .dict [("text", .str "a ")],
      .dict [("text", .str ""), ("caption", .str " b")], .int 7]
    (by decide)
  exact h.trans rfl

/-- Claim C9 counterexample: the Normalizer CAN raise on a sequence: a
keyed element whose `text` value is a truthy non-string (here the integer
5) makes the source call `.strip()` on it, raising `AttributeError`. -/
theorem c9_counterexample :
    normalize_transcript (.list [.dict [("text", .int 5)]])
      = .error .attributeError := by
  simp only [normalize_transcript]
  rfl

/-- Claim C9 (amended): on every sequence whose keyed elements resolve
their recognized fields to strings or falsy values — including the empty
sequence and sequences of only unrecognized elements — the Normalizer
returns a (possibly empty) string without raising; the empty-transcript
failure is raised only afterwards by the Fetcher's post-normalization
check. -/
theorem c9_list_branch_total_amended (items : List PyVal)
    (h : ∀ it ∈ items, listItemSafe it = true) :
    ∃ s, normalize_transcript (.list items) = .ok s ∧
      (s = "" → finalize_script (.list items)
        = .error (.valueError "Transcript returned but empty after normalization")) := by
  have h1 : normalize_transcript (.list items)
      = .ok (pyStrip (sjoin (items.filterMap contribSpec))) := by
    simp only [normalize_transcript, normList]
    rw [listParts_safe items h]
  refine ⟨_, h1, fun hs => ?_⟩
  simp [finalize_script, h1, hs]

/-- Witness for C9 (amended): the empty sequence normalizes to the empty
string, and the Fetcher's finalization step raises the empty-transcript
failure. -/
theorem c9_list_branch_total_amended_witness :
    finalize_script (.list [])
      = .error (.valueError "Transcript returned but empty after normalization") := by
  obtain ⟨s, h1, h2⟩ := c9_list_branch_total_amended [] (by decide)
  have h0 : normalize_transcript (.list []) = .ok "" := by
    simp only [normalize_transcript]
    rfl
  rw [h0] at h1
  injection h1 with h1
  exact h2 h1.symm

theorem cacheMissRun_fetchCalls (env : Env) (vid : String) :
    (cacheMissRun env vid).2.fetchCalls = 1 := by
  unfold cacheMissRun
  repeat' split
  all_goals rfl

/-- Claim C1 counterexample: a cache record whose `output_text` field is
the EMPTY string is still served as an immediate cache hit with no fetch,
no LLM call and no insert — the source (line 188) tests only presence of
the field, so the claim's "a hit whose summary field is empty must not be
served" is false. -/
theorem c1_counterexample :
    getSummaryRun envHitEmpty "https://youtu.be/abc" = (.ok ⟨.str "", true⟩, eff0) ∧
    pyDictGet [("video_id", PyVal.str "abc"), ("output_text", PyVal.str "")] "output_text"
      = .str "" :=
  ⟨rfl, rfl⟩

/-- Claim C1 (amended): with a cache record present for the extracted id,
the request returns the record's `output_text` with `cached := true` and
performs no fetch, no LLM call and no insert IF AND ONLY IF the record is
non-empty and HAS an `output_text` field — presence of the field, not
non-emptiness of its value, decides the hit. -/
theorem c1_cache_hit_amended (env : Env) (url vid : String)
    (doc : List (String × PyVal))
    (h1 : getId url = some vid) (h2 : vid ≠ "") (h3 : env.cache vid = some doc) :
    (getSummaryRun env url = (.ok ⟨pyDictGet doc "output_text", true⟩, eff0))
      ↔ (doc ≠ [] ∧ (pyLookup "output_text" doc).isSome = true) := by
  have hbool : (!doc.isEmpty && (pyLookup "output_text" doc).isSome) = true
      ↔ (doc ≠ [] ∧ (pyLookup "output_text" doc).isSome = true) := by
    cases doc <;> simp
  constructor
  · intro hrun
    by_cases hcond : (!doc.isEmpty && (pyLookup "output_text" doc).isSome) = true
    · exact hbool.mp hcond
    · exfalso
      have hm : getSummaryRun env url = cacheMissRun env vid := by
        simp [getSummaryRun, h1, h2, h3, hcond]
      rw [hm] at hrun
      have hf := cacheMissRun_fetchCalls env vid
      rw [hrun] at hf
      simp [eff0] at hf
  · intro hcond
    have hc := hbool.mpr hcond
    simp [getSummaryRun, h1, h2, h3, hc]

/-- Witness for C1 (amended): a present, non-empty stored summary is
served as a hit with zero effects. -/
theorem c1_cache_hit_amended_witness :
    getSummaryRun envHit "https://youtu.be/abc" = (.ok ⟨.str "S", true⟩, eff0) :=
  (c1_cache_hit_amended envHit "https://youtu.be/abc" "abc"
    [("video_id", .str "abc"), ("output_text", .str "S")] rfl (by decide) rfl).mpr
    ⟨by simp, rfl⟩

/-- Claim C10: a `youtu.be` URL with an empty or all-slash path extracts
the EMPTY STRING (not absence), and the Orchestrator rejects any falsy
extracted id — empty string or absence alike — as invalid input with
status 400, before the cache lookup. -/
theorem c10_falsy_id_rejected :
    getId "https://youtu.be/" = some "" ∧
    getId "https://youtu.be///" = some "" ∧
    (∀ (env : Env) (url : String), (getId url = some "" ∨ getId url = Option.none) →
      summaryEndpoint env url = (.error ⟨400, "Invalid YouTube URL"⟩, eff0)) := by
  refine ⟨rfl, rfl, fun env url h => ?_⟩
  have hrun : getSummaryRun env url = (.error (.valueError "Invalid YouTube URL"), eff0) := by
    rcases h with h | h <;> simp [getSummaryRun, h]
  simp [summaryEndpoint, hrun, mapErr]

/-- Witness for C10 at `https://youtu.be/`. -/
theorem c10_falsy_id_rejected_witness :
    summaryEndpoint envNoKey "https://youtu.be/" = (.error ⟨400, "Invalid YouTube URL"⟩, eff0) :=
  c10_falsy_id_rejected.2.2 envNoKey "https://youtu.be/" (Or.inl rfl)

/-- Claim C8 counterexample: with the transcript credential absent, a
cache-miss request fails with status 502 — the SAME upstream/bad-gateway
class as transport failures (the source raises `RuntimeError`, line 119,
which the endpoint maps to 502, line 264-266) — not with a distinct
internal/service error (500), contradicting the claim. -/
theorem c8_counterexample :
    summaryEndpoint envNoKey "https://youtu.be/abc"
      = (.error ⟨502,
          "Transcript API key not configured in environment (YOUTUBE_TRANSCRIPT_API_KEY)"⟩,
         ⟨1, [], 0, 0⟩) ∧
    (summaryEndpoint envNoKey "https://youtu.be/abc").1
      ≠ .error ⟨500,
          "Transcript API key not configured in environment (YOUTUBE_TRANSCRIPT_API_KEY)"⟩ := by
  refine ⟨rfl, ?_⟩
  have he : (summaryEndpoint envNoKey "https://youtu.be/abc").1
      = Except.error ⟨502,
          "Transcript API key not configured in environment (YOUTUBE_TRANSCRIPT_API_KEY)"⟩ := rfl
  rw [he]
  intro hbad
  injection hbad with hbad
  have := congrArg HttpError.status hbad
  simp at this

/-- Claim C8 (amended): when the transcript credential is absent (or
empty), a cache-miss request fails as a `RuntimeError` mapped to 502 —
the same upstream/bad-gateway class used for transport failures, with the
credential message as detail. -/
theorem c8_missing_key_amended (env : Env) (url vid : String)
    (h1 : getId url = some vid) (h2 : vid ≠ "") (h3 : env.cache vid = Option.none)
    (h4 : env.apiKey = Option.none ∨ env.apiKey = some "") :
    summaryEndpoint env url
      = (.error ⟨502,
          "Transcript API key not configured in environment (YOUTUBE_TRANSCRIPT_API_KEY)"⟩,
         ⟨1, [], 0, 0⟩) := by
  have hf : fetch_script env.apiKey (env.post vid) vid
      = .error (.runtimeError
        "Transcript API key not configured in environment (YOUTUBE_TRANSCRIPT_API_KEY)") := by
    rcases h4 with h | h <;> simp [fetch_script, h]
  have hrun : getSummaryRun env url
      = (.error (.runtimeError
          "Transcript API key not configured in environment (YOUTUBE_TRANSCRIPT_API_KEY)"),
         ⟨1, [], 0, 0⟩) := by
    simp [getSummaryRun, h1, h2, h3, cacheMissRun, hf]
  simp [summaryEndpoint, hrun, mapErr]

/-- Witness for C8 (amended) on a concrete keyless environment. -/
theorem c8_missing_key_amended_witness :
    summaryEndpoint envNoKey "https://youtu.be/abc"
      = (.error ⟨502,
          "Transcript API key not configured in environment (YOUTUBE_TRANSCRIPT_API_KEY)"⟩,
         ⟨1, [], 0, 0⟩) :=
  c8_missing_key_amended envNoKey "https://youtu.be/abc" "abc" rfl (by decide) rfl
    (Or.inl rfl)

/-- Claim C3: the endpoint maps the failure kinds to the specified
statuses: a URL yielding no (or an empty) video id gives 400 with
"Invalid YouTube URL"; every `ValueError` raised by the pipeline (the
absent/empty/unrecognized-transcript class) surfaces as a 400 with its
message; a non-success transcript-provider response makes `fetch_script`
raise the upstream `RuntimeError`; an LLM-call exception becomes the
upstream `RuntimeError`; and every `RuntimeError` surfaces as 502 with
its message. -/
theorem c3_status_mapping (env : Env) (url : String) :
    ((getId url = Option.none ∨ getId url = some "") →
      summaryEndpoint env url = (.error ⟨400, "Invalid YouTube URL"⟩, eff0)) ∧
    (∀ m eff, getSummaryRun env url = (.error (.valueError m), eff) →
      summaryEndpoint env url = (.error ⟨400, m⟩, eff)) ∧
    (∀ raw s, normalize_transcript raw = .ok s → s = "" →
      finalize_script raw
        = .error (.valueError "Transcript returned but empty after normalization")) ∧
    (∀ (key : String) (r : HttpResp) (vid : String), key ≠ "" → r.status_code ≠ 200 →
      fetch_script (some key) (.resp r) vid
        = .error (.runtimeError
            ("Transcript API error " ++ toString r.status_code ++ ": " ++ r.text))) ∧
    (∀ prompt e, env.llm prompt = .error e →
      callLLM env.llm prompt = .error (.runtimeError ("LLM request failed: " ++ e))) ∧
    (∀ m eff, getSummaryRun env url = (.error (.runtimeError m), eff) →
      summaryEndpoint env url = (.error ⟨502, m⟩, eff)) := by
  refine ⟨fun h => ?_, fun m eff h => ?_, fun raw s hn hs => ?_,
    fun key r vid hk h200 => ?_, fun prompt e h => ?_, fun m eff h => ?_⟩
  · have hrun : getSummaryRun env url
        = (.error (.valueError "Invalid YouTube URL"), eff0) := by
      rcases h with h | h <;> simp [getSummaryRun, h]
    simp [summaryEndpoint, hrun, mapErr]
  · simp [summaryEndpoint, h, mapErr]
  · simp [finalize_script, hn, hs]
  · simp [fetch_script, hk, h200]
  · simp [callLLM, h]
  · simp [summaryEndpoint, h, mapErr]

/-- Witness for C3 on concrete environments: a bad-host URL gives 400, a
provider 500 makes the fetch raise the upstream error and the request end
in 502, and a throwing LLM call becomes the upstream error. -/
theorem c3_status_mapping_witness :
    summaryEndpoint env500 "https://example.com/watch?v=abc"
      = (.error ⟨400, "Invalid YouTube URL"⟩, eff0) ∧
    finalize_script (.str " ")
      = .error (.valueError "Transcript returned but empty after normalization") ∧
    fetch_script (some "K") (.resp ⟨500, "boom", Option.none⟩) "abc"
      = .error (.runtimeError "Transcript API error 500: boom") ∧
    callLLM env500.llm "p" = .error (.runtimeError "LLM request failed: llmdown") ∧
    summaryEndpoint env500 "https://youtu.be/abc"
      = (.error ⟨502, "Transcript API error 500: boom"⟩, ⟨1, [], 0, 0⟩) := by
  refine ⟨?_, ?_, ?_, ?_, ?_⟩
  · exact (c3_status_mapping env500 "https://example.com/watch?v=abc").1 (Or.inl rfl)
  · refine (c3_status_mapping env500 "u").2.2.1 (.str " ") "" ?_ rfl
    simp [normalize_transcript]
    rfl
  · exact (c3_status_mapping env500 "u").2.2.2.1 "K" ⟨500, "boom", Option.none⟩ "abc"
      (by decide) (by decide)
  · exact (c3_status_mapping env500 "u").2.2.2.2.1 "p" "llmdown" rfl
  · exact (c3_status_mapping env500 "https://youtu.be/abc").2.2.2.2.2
      "Transcript API error 500: boom" ⟨1, [], 0, 0⟩ rfl

/-- Claim C6: the text passed to prompt construction is exactly the first
20000 characters of the fetched transcript — a transcript of at most
20000 characters passes through unmodified, a longer one is cut to
exactly 20000 characters — and on a cache miss with a successful fetch
the single LLM prompt is built from the truncated transcript. -/
theorem c6_truncation (s : String) :
    (truncateScript s).toList = s.toList.take MAX_CHARS ∧
    (s.length ≤ MAX_CHARS → truncateScript s = s) ∧
    (MAX_CHARS < s.length → (truncateScript s).length = MAX_CHARS) ∧
    (∀ (env : Env) (url vid : String), getId url = some vid → vid ≠ "" →
      env.cache vid = Option.none →
      fetch_script env.apiKey (env.post vid) vid = .ok s →
      (getSummaryRun env url).2.llmPrompts = [buildPrompt (truncateScript s)]) := by
    have hdl : s.toList.length = s.length := rfl
    refine ⟨?_, fun hle => ?_, fun hlt => ?_, fun env url vid h1 h2 h3 h4 => ?_⟩
    · unfold truncateScript
      by_cases h : MAX_CHARS < s.length
      · rw [if_pos h]
        rfl
      · rw [if_neg h]
        have hle : s.toList.length ≤ MAX_CHARS := by omega
        rw [List.take_of_length_le hle]
    · unfold truncateScript
      rw [if_neg (by omega)]
    · unfold truncateScript
      rw [if_pos hlt]
      have hlen : (String.mk (s.toList.take MAX_CHARS)).length
          = (s.toList.take MAX_CHARS).length := rfl
      rw [hlen, List.length_take]
      omega
    · have hrun : getSummaryRun env url = cacheMissRun env vid := by
        simp [getSummaryRun, h1, h2, h3]
      rw [hrun]
      unfold cacheMissRun
      cases hc : callLLM env.llm (buildPrompt (truncateScript s)) with
      | error e => simp [h4, hc]
      | ok r =>
        cases he : extractSummaryText r with
        | error e => simp [h4, hc, he]
        | ok t => cases hb : env.insertFails <;> simp [h4, hc, he, hb]

/-- Witness for C6: a short transcript passes through unmodified, a
20001-character transcript truncates to length 20000, and the concrete
successful-fetch environment prompts the LLM with the (un)truncated
text. -/
theorem c6_truncation_witness :
    truncateScript "ab" = "ab" ∧
    (truncateScript longScript).length = MAX_CHARS ∧
    (getSummaryRun envOk "https://youtu.be/abc").2.llmPrompts
      = [buildPrompt (truncateScript "hello")] := by
  refine ⟨?_, ?_, ?_⟩
  · exact (c6_truncation "ab").2.1 (by decide)
  · refine (c6_truncation longScript).2.2.1 ?_
    show MAX_CHARS < (List.replicate 20001 'a').length
    rw [List.length_replicate]
    decide
  · refine (c6_truncation "hello").2.2.2 envOk "https://youtu.be/abc" "abc" rfl
      (by decide) rfl ?_
    show fetch_script (some "K")
      (.resp ⟨200, "", some (.dict [("transcript", .str "hello")])⟩) "abc" = .ok "hello"
    simp [fetch_script, selectVideoObj, keyLoop, pyContains, pySubscript, pyLookup,
      truthy, finalize_script, normalize_transcript]
    rfl

theorem cacheMissRun_insertFails_fst (env : Env) (vid : String) (b1 b2 : Bool) :
    (cacheMissRun { env with insertFails := b1 } vid).1
      = (cacheMissRun { env with insertFails := b2 } vid).1 := by
  obtain ⟨c, a, p, l, i⟩ := env
  unfold cacheMissRun
  dsimp only
  cases hfs : fetch_script a (p vid) vid with
  | error e => rfl
  | ok s =>
    cases hc : callLLM l (buildPrompt (truncateScript s)) with
    | error e => simp [hc]
    | ok r =>
      cases he : extractSummaryText r with
      | error e => simp [hc, he]
      | ok t => cases b1 <;> cases b2 <;> simp [hc, he]

theorem cacheMissRun_ok_cached (env : Env) (vid : String) (r : SummaryResult)
    (eff : Effects) (h : cacheMissRun env vid = (.ok r, eff)) : r.cached = false := by
  unfold cacheMissRun at h
  cases hfs : fetch_script env.apiKey (env.post vid) vid with
  | error e => simp [hfs] at h
  | ok s =>
    simp only [hfs] at h
    cases hc : callLLM env.llm (buildPrompt (truncateScript s)) with
    | error e => simp [hc] at h
    | ok resp =>
      simp only [hc] at h
      cases he : extractSummaryText resp with
      | error e => simp [he] at h
      | ok t =>
        simp only [he] at h
        by_cases hb : env.insertFails = true
        · rw [if_pos hb] at h
          have h1 : (.ok ⟨PyVal.str t, false⟩ : Except PyErr SummaryResult) = .ok r :=
            congrArg Prod.fst h
          injection h1 with h2
          rw [← h2]
        · rw [if_neg hb] at h
          have h1 : (.ok ⟨PyVal.str t, false⟩ : Except PyErr SummaryResult) = .ok r :=
            congrArg Prod.fst h
          injection h1 with h2
          rw [← h2]

/-- Claim C7: a store-level failure of the best-effort cache insert is
swallowed: the response value of a request does not depend on whether the
insert raises; and every request that attempts an insert (after a
successfully extracted summary) returns `cached := false`. -/
theorem c7_insert_swallowed (env : Env) (url : String) :
    ((getSummaryRun { env with insertFails := true } url).1
      = (getSummaryRun { env with insertFails := false } url).1) ∧
    (∀ r eff, getSummaryRun env url = (.ok r, eff) → 1 ≤ eff.insertAttempts →
      r.cached = false) := by
  constructor
  · cases hid : getId url with
    | none => simp [getSummaryRun, hid]
    | some vid =>
      by_cases hv : vid = ""
      · simp [getSummaryRun, hid, hv]
      · cases hcv : env.cache vid with
        | none =>
          simp only [getSummaryRun, hid, hv, if_neg hv, hcv]
          exact cacheMissRun_insertFails_fst env vid true false
        | some doc =>
          by_cases hd : (!doc.isEmpty && (pyLookup "output_text" doc).isSome) = true
          · simp [getSummaryRun, hid, hv, hcv, hd]
          · simp only [getSummaryRun, hid, hv, if_neg hv, hcv,
              hd, Bool.false_eq_true, if_false]
            exact cacheMissRun_insertFails_fst env vid true false
  · intro r eff h hins
    cases hid : getId url with
    | none => simp [getSummaryRun, hid] at h
    | some vid =>
      by_cases hv : vid = ""
      · simp [getSummaryRun, hid, hv] at h
      · cases hcv : env.cache vid with
        | none =>
          simp only [getSummaryRun, hid, hv, if_neg hv, hcv] at h
          exact cacheMissRun_ok_cached env vid r eff h
        | some doc =>
          by_cases hd : (!doc.isEmpty && (pyLookup "output_text" doc).isSome) = true
          · simp [getSummaryRun, hid, hv, hcv, hd] at h
            have he : eff = eff0 := h.2.symm
            rw [he] at hins
            simp [eff0] at hins
          · simp only [getSummaryRun, hid, hv, if_neg hv, hcv,
              hd, Bool.false_eq_true, if_false] at h
            exact cacheMissRun_ok_cached env vid r eff h

/-- Witness for C7: against the successful-fetch environment, toggling the
insert failure leaves the response value unchanged, and the concrete run
with a FAILING insert still returns the summary with `cached := false`
while recording the attempted and failed insert. -/
theorem c7_insert_swallowed_witness :
    (getSummaryRun { envOk with insertFails := true } "https://youtu.be/abc").1
      = (getSummaryRun envOk "https://youtu.be/abc").1 ∧
    getSummaryRun { envOk with insertFails := true } "https://youtu.be/abc"
      = (.ok ⟨.str "SUM", false⟩, ⟨1, [buildPrompt "hello"], 1, 1⟩) ∧
    SummaryResult.cached ⟨.str "SUM", false⟩ = false := by
  have hid : getId "https://youtu.be/abc" = some "abc" := rfl
  have hf : fetch_script (some "K")
      (.resp ⟨200, "", some (.dict [("transcript", .str "hello")])⟩) "abc"
      = .ok "hello" := by
    simp [fetch_script, selectVideoObj, keyLoop, pyContains, pySubscript, pyLookup,
      truthy, finalize_script, normalize_transcript]
    rfl
  have htr : truncateScript "hello" = "hello" := rfl
  have hrun : getSummaryRun { envOk with insertFails := true } "https://youtu.be/abc"
      = (.ok ⟨.str "SUM", false⟩, ⟨1, [buildPrompt "hello"], 1, 1⟩) := by
    simp [getSummaryRun, envOk, cacheMissRun, hid, hf, htr, callLLM, extractSummaryText]
  refine ⟨(c7_insert_swallowed envOk "https://youtu.be/abc").1, hrun, ?_⟩
  exact (c7_insert_swallowed { envOk with insertFails := true }
    "https://youtu.be/abc").2 ⟨.str "SUM", false⟩ ⟨1, [buildPrompt "hello"], 1, 1⟩
    (by
      have : ({ envOk with insertFails := true } : Env)
          = { { envOk with insertFails := true } with insertFails := true } := rfl
      exact hrun)
    (by decide)

end YT

